import Mathlib

/-!
# The memcached collector of scollector

A shallow embedding of `cmd/scollector/collectors/memcached_unix.go`:
the metadata table `memcachedMeta` and the collection pass `c_memcached_stats`,
whose line handler splits a raw line into fields, parses the second field as a
64-bit float, looks the first field up in the table and appends one data point.

Go strings are modelled by Lean strings (sequences of Unicode code points, that
is, Go strings holding valid UTF-8).  The closure of `c_memcached_stats` mutates
the local slice `md`; here the slice is passed explicitly as a state.
-/

set_option autoImplicit false

/-! ## Go standard library: `unicode` and `strings` -/

namespace unicode

/-- Go `unicode.IsSpace`: in Latin-1 the characters tab, line feed, vertical tab,
form feed, carriage return, space, U+0085 and U+00A0; above Latin-1 the code
points of the Unicode property White_Space. -/
def IsSpace (r : Char) : Bool :=
  let n := r.toNat
  if n ≤ 0xFF then
    n == 0x09 || n == 0x0A || n == 0x0B || n == 0x0C || n == 0x0D || n == 0x20
      || n == 0x85 || n == 0xA0
  else
    n == 0x1680 || (0x2000 ≤ n && n ≤ 0x200A) || n == 0x2028 || n == 0x2029
      || n == 0x202F || n == 0x205F || n == 0x3000

end unicode

namespace strings

/-- The scanning loop of Go `strings.FieldsFunc`.  The first argument is the field
being read (its characters, last first), `none` between fields: the Go variable
`start`, negative between fields. -/
def fieldsLoop (f : Char → Bool) : Option (List Char) → List Char → List String
  | none, [] => []
  | some w, [] => [String.mk w.reverse]
  | none, c :: cs => if f c then fieldsLoop f none cs else fieldsLoop f (some [c]) cs
  | some w, c :: cs =>
      if f c then String.mk w.reverse :: fieldsLoop f none cs
      else fieldsLoop f (some (c :: w)) cs

/-- Go `strings.FieldsFunc`: the maximal runs of characters not satisfying `f`. -/
def FieldsFunc (s : String) (f : Char → Bool) : List String :=
  fieldsLoop f none s.data

/-- Go `strings.Fields`: splits `s` around each run of white space characters, as
defined by `unicode.IsSpace`; the result is empty when `s` holds only white space. -/
def Fields (s : String) : List String :=
  FieldsFunc s unicode.IsSpace

end strings

/-! ## Go standard library: `strconv.ParseFloat` -/

namespace strconv

/-- A value of Go type `float64` (IEEE-754 binary64): not-a-number, an infinity,
or a finite value of magnitude `num / den` in lowest terms with its sign (the
sign distinguishes the two zeros). -/
inductive Float64 where
  | nan
  | inf (neg : Bool)
  | finite (neg : Bool) (num den : Nat)
  deriving DecidableEq, Repr

/-- The two errors of Go `strconv.ParseFloat`. -/
inductive NumError where
  | ErrSyntax
  | ErrRange
  deriving DecidableEq, Repr

/-- The finite value of magnitude `q * 2 ^ x`, in lowest terms. -/
def Float64.ofBinary (neg : Bool) (q : Nat) (x : Int) : Float64 :=
  if 0 ≤ x then .finite neg (q * 2 ^ x.toNat) 1
  else
    let d := 2 ^ (-x).toNat
    let g := Nat.gcd q d
    .finite neg (q / g) (d / g)

/-- The floor of the binary logarithm of `n` (0 for `n = 0`), by halving; the
first argument bounds the number of halvings. -/
def log2Loop : Nat → Nat → Nat
  | 0, _ => 0
  | fuel + 1, n => if n < 2 then 0 else log2Loop fuel (n / 2) + 1

/-- The floor of the binary logarithm of `n` (0 for `n = 0`). -/
def log2 (n : Nat) : Nat := log2Loop n n

/-- The binary64 value nearest to the positive rational `n / d`, ties to even, as
a significand `q < 2 ^ 53` and an exponent `-1074 ≤ x` of two; `none` when the
rounded value exceeds the largest finite binary64 value. -/
def roundBinary64 (n d : Nat) : Option (Nat × Int) :=
  let l0 : Int := (log2 n : Int) - (log2 d : Int)
  -- the floor of the binary logarithm of n / d is l0 or l0 - 1
  let above : Bool :=
    if 0 ≤ l0 then decide (d * 2 ^ l0.toNat ≤ n) else decide (d ≤ n * 2 ^ (-l0).toNat)
  let l : Int := if above then l0 else l0 - 1
  let x : Int := max (l - 52) (-1074)
  let a : Nat := if 0 ≤ x then n else n * 2 ^ (-x).toNat
  let b : Nat := if 0 ≤ x then d * 2 ^ x.toNat else d
  let q0 := a / b
  let r := a % b
  let q1 := if b < 2 * r || (2 * r == b && q0 % 2 == 1) then q0 + 1 else q0
  let q := if q1 == 2 ^ 53 then 2 ^ 52 else q1
  let x1 := if q1 == 2 ^ 53 then x + 1 else x
  if 971 < x1 then none else some (q, x1)

/-- ASCII lower case of a character, as in `equalIgnoreCase` of package strconv. -/
def lower (c : Char) : Char :=
  if 'A' ≤ c ∧ c ≤ 'Z' then Char.ofNat (c.toNat + 32) else c

/-- The function `special` of package strconv: the strings "inf", "infinity"
(with an optional sign) and "nan", in any case. -/
def special (s : List Char) : Option Float64 :=
  let t := s.map lower
  if t = "nan".data then some .nan
  else if t = "inf".data ∨ t = "infinity".data ∨ t = "+inf".data ∨ t = "+infinity".data then
    some (.inf false)
  else if t = "-inf".data ∨ t = "-infinity".data then some (.inf true)
  else none

/-- The state of the digit loop of `readFloat`: the digits read so far as a
number (leading zeros dropped), their count `nd`, the position `dp` of the
decimal point and the two flags. -/
structure Digits where
  mantissa : Nat := 0
  nd : Nat := 0
  dp : Int := 0
  sawdot : Bool := false
  sawdigits : Bool := false
  deriving DecidableEq, Repr

/-- The digit loop of `readFloat`: reads digits and at most one point, and returns
the state with the unread rest of the string; `none` at a second point. -/
def readDigits : Digits → List Char → Option (Digits × List Char)
  | st, [] => some (st, [])
  | st, c :: cs =>
      if c = '.' then
        if st.sawdot then none
        else readDigits { st with sawdot := true, dp := st.nd } cs
      else if '0' ≤ c ∧ c ≤ '9' then
        if c = '0' ∧ st.nd = 0 then
          readDigits { st with sawdigits := true, dp := st.dp - 1 } cs
        else
          readDigits { st with sawdigits := true, nd := st.nd + 1,
                               mantissa := st.mantissa * 10 + (c.toNat - 48) } cs
      else some (st, c :: cs)

/-- The exponent loop of `readFloat`: the value of a run of digits, no longer
accumulated once it has reached 10000, with the unread rest. -/
def readExp : Nat → List Char → Nat × List Char
  | e, [] => (e, [])
  | e, c :: cs =>
      if '0' ≤ c ∧ c ≤ '9' then
        readExp (if e < 10000 then e * 10 + (c.toNat - 48) else e) cs
      else (e, c :: cs)

/-- The optional exponent part of `readFloat`: the signed exponent read from the
rest of the string, which it must use up; `none` on a syntax error. -/
def readExponent : List Char → Option Int
  | [] => some 0
  | c :: cs =>
      if c = 'e' ∨ c = 'E' then
        let esign : Int := match cs with
          | '-' :: _ => -1
          | _ => 1
        let ds := match cs with
          | '+' :: t => t
          | '-' :: t => t
          | t => t
        match ds with
        | [] => none
        | d :: _ =>
            if '0' ≤ d ∧ d ≤ '9' then
              match readExp 0 ds with
              | (e, []) => some (e * esign)
              | (_, _ :: _) => none
            else none
      else none

/-- The function `readFloat` of package strconv: the sign, the decimal digits as
a number and the power of ten that scales them; `none` on a syntax error. -/
def readFloat (s : List Char) : Option (Bool × Nat × Int) :=
  match s with
  | [] => none
  | c :: cs =>
      let neg := c = '-'
      let body := if c = '+' ∨ c = '-' then cs else c :: cs
      match readDigits {} body with
      | none => none
      | some (st, rest) =>
          if !st.sawdigits then none
          else
            let dp : Int := if st.sawdot then st.dp else st.nd
            match readExponent rest with
            | none => none
            | some e => some (neg, st.mantissa, dp + e - st.nd)

/-- Go `strconv.ParseFloat(s, 64)` on decimal floating-point literals and the
special values: the nearest binary64 value and a nil error, the zero value and
`ErrSyntax` when `s` is not well-formed, an infinity and `ErrRange` when the
value rounds beyond the largest finite binary64 value. -/
def ParseFloat (s : String) : Float64 × Option NumError :=
  match special s.data with
  | some v => (v, none)
  | none =>
      match readFloat s.data with
      | none => (.finite false 0 1, some .ErrSyntax)
      | some (neg, m, e) =>
          if m = 0 then (.finite neg 0 1, none)
          else
            let n := if 0 ≤ e then m * 10 ^ e.toNat else m
            let d := if 0 ≤ e then 1 else 10 ^ (-e).toNat
            match roundBinary64 n d with
            | none => (.inf neg, some .ErrRange)
            | some (q, x) => (Float64.ofBinary neg q x, none)

end strconv


/-! ## Packages `metadata`, `opentsdb` and `util` of the repository -/

namespace metadata

/-- Modelled from the spec: the type `metadata.RateType`, declared in package
metadata (not among the sources here); the spec gives it as the enumeration
of Counter and Gauge, the two constants the table uses. -/
inductive RateType where
  | Counter
  | Gauge
  deriving DecidableEq, Repr

/-- Modelled from the spec: the type `metadata.Unit`, declared in package metadata
(not among the sources here), a string type: a value is one of the package's
unit constants that the table names, or a string literal written in the table. -/
inductive Unit where
  | Bool
  | Operation
  | Bytes
  | Yield
  | Connection
  | Item
  | Eviction
  | Thread
  | literal (s : String)
  deriving DecidableEq, Repr

end metadata

namespace opentsdb

/-- Modelled from the spec: the type `opentsdb.TagSet` (package opentsdb is not
among the sources here), a Go map from tag name to tag value, held as the list of
its entries; a map literal has no repeated key. -/
abbrev TagSet := List (String × String)

/-- The value of tag `k` in a tag set, if any. -/
def TagSet.get (t : TagSet) (k : String) : Option String :=
  (t.find? (fun e => e.1 == k)).map Prod.snd

/-- Equality of tag sets as maps: the same number of entries, and every entry of
the first has the same value in the second. -/
def TagSet.Equal (t o : TagSet) : Bool :=
  t.length == o.length && t.all (fun e => o.get e.1 == some e.2)

/-- Modelled from the spec: the data point handed to the delivery layer, the
tuple of metric name, value, tags, rate type, unit and description (its timestamp
is the implicit time of the pass and is left out). -/
structure DataPoint where
  Metric : String
  Value : strconv.Float64
  Tags : TagSet
  RateType : metadata.RateType
  Unit : metadata.Unit
  Desc : String
  deriving DecidableEq, Repr

/-- Go `opentsdb.MultiDataPoint`: the batch, a slice of data points. -/
abbrev MultiDataPoint := List DataPoint

end opentsdb

namespace util

/-- A Go `error` value that is not nil, with its message. -/
structure Error where
  msg : String
  deriving DecidableEq, Repr

/-- Modelled from the spec: what the raw stat source (the command run by
`util.ReadCommand`, not among the sources here) does in one pass: the lines it
produces, in order, and the failure it signals, if any (the command cannot be
run, exits non-zero, or a read fails). -/
structure RawSource where
  lines : List String
  failure : Option Error
  deriving DecidableEq, Repr

/-- The loop of `ReadCommand` over the lines: calls `line` on each, with the state
the closure captures passed along, and stops at the first error `line` returns. -/
def readLines {σ : Type} (line : σ → String → σ × Option Error) :
    σ → List String → σ × Option Error
  | st, [] => (st, none)
  | st, l :: ls =>
      match line st l with
      | (st1, none) => readLines line st1 ls
      | (st1, some e) => (st1, some e)

/-- Modelled from the spec: `util.ReadCommand` (package util is not among the
sources here) opens the raw stat source, calls `line` on each line it produces,
in order, and returns an error when `line` returns one or the source fails. -/
def ReadCommand {σ : Type} (line : σ → String → σ × Option Error) (src : RawSource)
    (st : σ) : σ × Option Error :=
  match readLines line st src.lines with
  | (st1, some e) => (st1, some e)
  | (st1, none) => (st1, src.failure)

end util

/-! ## Package `collectors`: the source file -/

namespace collectors

open opentsdb

/-- Modelled from the spec: the type `MetricMeta` of package collectors (declared
in another file, not among the sources here), with the five fields the table
sets; a field the literal leaves out has the zero value. -/
structure MetricMeta where
  Metric : String := ""
  TagSet : opentsdb.TagSet := []
  RateType : metadata.RateType
  Unit : metadata.Unit
  Desc : String
  deriving DecidableEq, Repr

/-- Modelled from the spec: the function `Add` of package collectors (declared in
another file, not among the sources here) appends to the batch one data point
carrying the name, the value, the tag set, the rate type, the unit and the
description it is given. -/
def Add (md : MultiDataPoint) (name : String) (value : strconv.Float64) (t : TagSet)
    (rate : metadata.RateType) (unit : metadata.Unit) (desc : String) : MultiDataPoint :=
  md ++ [{ Metric := name, Value := value, Tags := t, RateType := rate, Unit := unit,
           Desc := desc }]

/-- The table `memcachedMeta`: a Go map literal from raw stat key to emission rule,
held as the list of its entries in the order of the source. -/
def memcachedMeta : List (String × MetricMeta) := [
  ("accepting_conns",
    { RateType := .Gauge,
      Unit := .Bool,
      Desc := "Indicates if the memcache instance is currently accepting connections." }),
  ("auth_cmds",
    { RateType := .Counter,
      Unit := .Operation,
      Desc := "The number of authentication commands handled (includes both success or failure)." }),
  ("auth_errors",
    { RateType := .Counter,
      Unit := .Operation,
      Desc := "The number of of failed authentications." }),
  ("bytes_read",
    { Metric := "bytes",
      TagSet := [("type", "read")],
      RateType := .Counter,
      Unit := .Bytes,
      Desc := "The total number of bytes read from the network." }),
  ("bytes_written",
    { Metric := "bytes",
      TagSet := [("type", "write")],
      RateType := .Counter,
      Unit := .Bytes,
      Desc := "The total number of bytes written to the network." }),
  ("cas_badval",
    { RateType := .Counter,
      Unit := .Operation,
      Desc := "The number of CAS requests for which a key was found, but the CAS value did not match." }),
  ("cas_hits",
    { RateType := .Counter,
      Unit := .Operation,
      Desc := "The number of successful CAS requests." }),
  ("cas_misses",
    { RateType := .Counter,
      Unit := .Operation,
      Desc := "The number of CAS requests against missing keys." }),
  ("cmd_flush",
    { RateType := .Counter,
      Unit := .Operation,
      Desc := "The cumulative number of flush requests." }),
  ("cmd_set",
    { RateType := .Counter,
      Unit := .Operation,
      Desc := "The cumulative number of storage requests." }),
  ("cmd_get",
    { RateType := .Counter,
      Unit := .Operation,
      Desc := "The cumulative number of retrieval requests." }),
  ("conn_yields",
    { RateType := .Counter,
      Unit := .Yield,
      Desc := "The number of times any connection yielded to another due to hitting the memcached -R limit." }),
  ("connection_structures",
    { RateType := .Gauge,
      Unit := .literal "Connection Structures",
      Desc := "The number of connection structures allocated by the server." }),
  ("curr_connections",
    { RateType := .Gauge,
      Unit := .Connection,
      Desc := "The current number of open connections." }),
  ("curr_items",
    { RateType := .Gauge,
      Unit := .Item,
      Desc := "The current number of items in the cache." }),
  ("decr_hits",
    { Metric := "commands",
      TagSet := [("type", "decr"), ("cache", "hit")],
      RateType := .Counter,
      Unit := .Operation,
      Desc := "The total number of decr command cache hits (decr decreases a stored value by 1)." }),
  ("decr_misses",
    { Metric := "commands",
      TagSet := [("type", "decr"), ("cache", "miss")],
      RateType := .Counter,
      Unit := .Operation,
      Desc := "The total number of decr command cache misses (decr decreases a stored value by 1)." }),
  ("incr_hits",
    { Metric := "commands",
      TagSet := [("type", "incr"), ("cache", "hit")],
      RateType := .Counter,
      Unit := .Operation,
      Desc := "The total number of incr command cache hits (incr increases a stored value by 1)." }),
  ("incr_misses",
    { Metric := "commands",
      TagSet := [("type", "incr"), ("cache", "miss")],
      RateType := .Counter,
      Unit := .Operation,
      Desc := "The total number of incr command cache misses (incr increases a stored value by 1)." }),
  ("get_hits",
    { Metric := "commands",
      TagSet := [("type", "get"), ("cache", "hit")],
      RateType := .Counter,
      Unit := .Operation,
      Desc := "The total number of successful get commands (cache hits) since startup." }),
  ("get_misses",
    { Metric := "commands",
      TagSet := [("type", "get"), ("cache", "miss")],
      RateType := .Counter,
      Unit := .Operation,
      Desc := "The total number of failed get requests because nothing was cached for this key or the cached value was too old." }),
  ("delete_hits",
    { Metric := "commands",
      TagSet := [("type", "delete"), ("cache", "hit")],
      RateType := .Counter,
      Unit := .Operation,
      Desc := "The total number of successful delete commands (cache hits) since startup." }),
  ("delete_misses",
    { Metric := "commands",
      TagSet := [("type", "delete"), ("cache", "miss")],
      RateType := .Counter,
      Unit := .Operation,
      Desc := "The total number of delete commands for keys not existing within the cache." }),
  ("evictions",
    { RateType := .Counter,
      Unit := .Eviction,
      Desc := "The Number of objects removed from the cache to free up memory for new items because Memcached reached it's maximum memory setting (limit_maxbytes)." }),
  ("limit_maxbytes",
    { Metric := "cache_limit",
      RateType := .Gauge,
      Unit := .Bytes,
      Desc := "The max allowed size of the cache." }),
  ("bytes",
    { Metric := "cache_size",
      RateType := .Gauge,
      Unit := .Bytes,
      Desc := "The current size of the cache." }),
  ("listen_disabled_num",
    { Metric := "failed_connections",
      RateType := .Counter,
      Unit := .Connection,
      Desc := "The number of denied connection attempts because memcached reached it's configured connection limit." }),
  ("threads",
    { RateType := .Gauge,
      Unit := .Thread,
      Desc := "The current number of threads." }),
  ("total_connections",
    { RateType := .Counter,
      Unit := .Connection,
      Desc := "The total number of successful connect attempts." }),
  ("total_items",
    { RateType := .Counter,
      Unit := .Item,
      Desc := "The total number of items ever stored." })]

/-- The map index expression `memcachedMeta[k]` with its `ok` result: the entry of
key `k`, if the table has one. -/
def memcachedMeta_get (k : String) : Option MetricMeta :=
  (memcachedMeta.find? (fun e => e.1 == k)).map Prod.snd

/-- The constant `metric` of `c_memcached_stats`, the prefix of every metric name. -/
def metric : String := "memcached."

/-- The function literal that `c_memcached_stats` hands to `util.ReadCommand`, run on
one raw line.  It captures the batch `md`, passed and returned here; the float
parser of the Go library is the argument `ParseFloat`.  The error it returns is
nil on every path. -/
def lineHandler (ParseFloat : String → strconv.Float64 × Option strconv.NumError)
    (md : MultiDataPoint) (line : String) : MultiDataPoint × Option util.Error :=
  match strings.Fields line with
  | [f0, f1] =>
      match ParseFloat f1 with
      | (_, some _) => (md, none)
      | (v, none) =>
          match memcachedMeta_get f0 with
          | some m =>
              let name := if m.Metric != "" then m.Metric else f0
              (Add md (metric ++ name) v m.TagSet m.RateType m.Unit m.Desc, none)
          | none => (md, none)
  | _ => (md, none)  -- len(f) != 2

/-- The function `c_memcached_stats`: one collection pass over the raw stat source.
The batch starts empty, the line handler runs under `util.ReadCommand`, whose own
result is discarded, and the pass returns the batch with a nil error. -/
def c_memcached_stats (ParseFloat : String → strconv.Float64 × Option strconv.NumError)
    (src : util.RawSource) : MultiDataPoint × Option util.Error :=
  let md : MultiDataPoint := []
  let r := util.ReadCommand (lineHandler ParseFloat) src md
  (r.1, none)

/-- Whether two data points have the same metric name and the same tag set. -/
def sameSeries (p q : DataPoint) : Bool :=
  p.Metric == q.Metric && TagSet.Equal p.Tags q.Tags

/-- The data point the handler hands to `Add` for the key `k`, its entry `m` and
the parsed value `v`. -/
def emittedPoint (k : String) (m : MetricMeta) (v : strconv.Float64) : DataPoint :=
  { Metric := metric ++ (if m.Metric != "" then m.Metric else k), Value := v,
    Tags := m.TagSet, RateType := m.RateType, Unit := m.Unit, Desc := m.Desc }

/-- The raw key on which a line makes the handler emit a point: the first field of
a line of exactly two fields whose second field the float parser accepts and
whose first field is a key of `memcachedMeta`; `none` for any other line. -/
def emittedKey (ParseFloat : String → strconv.Float64 × Option strconv.NumError)
    (line : String) : Option String :=
  match strings.Fields line with
  | [f0, f1] =>
      if (ParseFloat f1).2 = none ∧ (memcachedMeta_get f0).isSome then some f0 else none
  | _ => none

/-- Whether a line is valid: it has exactly two fields, the float parser accepts
the second and the first is a key of `memcachedMeta`. -/
def validLine (ParseFloat : String → strconv.Float64 × Option strconv.NumError)
    (line : String) : Bool :=
  match strings.Fields line with
  | [k, s] => decide ((ParseFloat s).2 = none) && (memcachedMeta.map Prod.fst).contains k
  | _ => false

/-- The unit constants of package metadata that make up the shared unit
vocabulary of the table. -/
def unitConstants : List metadata.Unit :=
  [.Bool, .Operation, .Bytes, .Yield, .Connection, .Item, .Eviction, .Thread]

end collectors

/-! ## Properties of the line handler -/

namespace collectors

open opentsdb

set_option maxRecDepth 100000 in
/-- Looking up the key of any entry of the table yields that entry. -/
theorem memcachedMeta_get_entries : ∀ e ∈ memcachedMeta, memcachedMeta_get e.1 = some e.2 := by
  decide

/-- An entry written in the table is what the map index expression returns. -/
theorem memcachedMeta_get_of_mem {k : String} {m : MetricMeta}
    (h : (k, m) ∈ memcachedMeta) : memcachedMeta_get k = some m :=
  memcachedMeta_get_entries (k, m) h

/-- What the map index expression returns is an entry written in the table. -/
theorem mem_of_memcachedMeta_get {k : String} {m : MetricMeta}
    (h : memcachedMeta_get k = some m) : (k, m) ∈ memcachedMeta := by
  unfold memcachedMeta_get at h
  cases hfind : memcachedMeta.find? (fun e => e.1 == k) with
  | none => simp [hfind] at h
  | some e =>
      rw [hfind] at h
      have hkey := List.find?_some hfind
      have hmem := List.mem_of_find?_eq_some hfind
      obtain ⟨k1, m1⟩ := e
      simp only [Option.map_some', Option.some.injEq] at h
      simp only [beq_iff_eq] at hkey
      subst h
      subst hkey
      exact hmem

/-- A key is absent from the table exactly when the map index expression finds
no entry for it. -/
theorem memcachedMeta_get_eq_none {k : String} :
    memcachedMeta_get k = none ↔ k ∉ memcachedMeta.map Prod.fst := by
  constructor
  · intro h hk
    obtain ⟨e, he, rfl⟩ := List.mem_map.mp hk
    rw [memcachedMeta_get_entries e he] at h
    exact Option.noConfusion h
  · intro hk
    cases hget : memcachedMeta_get k with
    | none => rfl
    | some m =>
        exact absurd (List.mem_map.mpr ⟨(k, m), mem_of_memcachedMeta_get hget, rfl⟩) hk

variable (ParseFloat : String → strconv.Float64 × Option strconv.NumError)

/-- On a line of two fields with an accepted value and a known key the handler
appends the point that `Add` builds from the entry. -/
theorem lineHandler_emit {md : MultiDataPoint} {line k s : String} {m : MetricMeta}
    {v : strconv.Float64} (hf : strings.Fields line = [k, s])
    (hv : ParseFloat s = (v, none)) (hk : memcachedMeta_get k = some m) :
    lineHandler ParseFloat md line =
      (md ++ [{ Metric := "memcached." ++ (if m.Metric != "" then m.Metric else k),
                Value := v, Tags := m.TagSet, RateType := m.RateType, Unit := m.Unit,
                Desc := m.Desc }], none) := by
  simp only [lineHandler, hf, hv, hk, Add, metric]

/-- A line whose field count is not two leaves the batch as it is. -/
theorem lineHandler_fields {md : MultiDataPoint} {line : String}
    (hf : (strings.Fields line).length ≠ 2) : lineHandler ParseFloat md line = (md, none) := by
  unfold lineHandler
  split
  · next f0 f1 heq => simp [heq] at hf
  · rfl

/-- A line whose second field the parser rejects leaves the batch as it is. -/
theorem lineHandler_value {md : MultiDataPoint} {line k s : String}
    (hf : strings.Fields line = [k, s]) (hv : (ParseFloat s).2 ≠ none) :
    lineHandler ParseFloat md line = (md, none) := by
  simp only [lineHandler, hf]
  split
  · rfl
  · next v hpf => simp [hpf] at hv

/-- A line whose first field is not a key of the table leaves the batch as it is. -/
theorem lineHandler_key {md : MultiDataPoint} {line k s : String}
    (hf : strings.Fields line = [k, s]) (hk : memcachedMeta_get k = none) :
    lineHandler ParseFloat md line = (md, none) := by
  simp only [lineHandler, hf, hk]
  split <;> rfl

/-- The handler extends the batch it is given by what it would put into an empty
batch, and returns a nil error. -/
theorem lineHandler_eq (md : MultiDataPoint) (line : String) :
    lineHandler ParseFloat md line = (md ++ (lineHandler ParseFloat [] line).1, none) := by
  unfold lineHandler
  split
  · split
    · simp
    · split <;> simp [Add]
  · simp

/-- The handler puts at most one point into the batch. -/
theorem lineHandler_length_le (line : String) :
    (lineHandler ParseFloat [] line).1.length ≤ 1 := by
  unfold lineHandler
  split
  · split
    · simp
    · split <;> simp [Add]
  · simp

/-- The loop over the lines extends the batch by the points of the lines, in
order, and ends with a nil error. -/
theorem readLines_lineHandler (md : MultiDataPoint) (ls : List String) :
    util.readLines (lineHandler ParseFloat) md ls =
      (md ++ ls.flatMap (fun l => (lineHandler ParseFloat [] l).1), none) := by
  induction ls generalizing md with
  | nil => simp [util.readLines]
  | cons l ls ih =>
      rw [util.readLines, lineHandler_eq ParseFloat md l]
      simp only [ih, List.flatMap_cons, List.append_assoc]

/-- The batch of a pass is the concatenation of the points of the lines. -/
theorem c_memcached_stats_batch (src : util.RawSource) :
    (c_memcached_stats ParseFloat src).1 =
      src.lines.flatMap (fun l => (lineHandler ParseFloat [] l).1) := by
  simp [c_memcached_stats, util.ReadCommand, readLines_lineHandler]

/-! ## The claims on single lines -/

/-- C1: for a line that splits on white space into exactly the two fields `k` and
`s`, where the table has the entry `m` at key `k` and the float parser accepts
`s` with value `v`, the line handler appends exactly one data point to the batch:
its name is "memcached." followed by `m.Metric` if that is non-empty and by `k`
otherwise, its value is `v`, and its tag set, rate type, unit and description are
those of `m`. -/
theorem lineHandler_appends_one_point
    (md : MultiDataPoint) (line k s : String) (m : MetricMeta) (v : strconv.Float64)
    (hf : strings.Fields line = [k, s]) (hk : (k, m) ∈ memcachedMeta)
    (hv : ParseFloat s = (v, none)) :
    lineHandler ParseFloat md line =
      (md ++ [{ Metric := "memcached." ++ (if m.Metric ≠ "" then m.Metric else k),
                Value := v, Tags := m.TagSet, RateType := m.RateType, Unit := m.Unit,
                Desc := m.Desc }], none) := by
  rw [lineHandler_emit ParseFloat hf hv (memcachedMeta_get_of_mem hk)]
  by_cases hm : m.Metric = "" <;> simp [hm]

set_option maxRecDepth 100000 in
/-- C1, at the line "bytes_written 7": the entry renames the key to "bytes" and
tags the point with type write. -/
theorem lineHandler_appends_one_point_witness :
    lineHandler strconv.ParseFloat [] "bytes_written 7" =
      ([] ++ [{ Metric := "memcached." ++ (if ("bytes" : String) ≠ "" then "bytes" else "bytes_written"),
                Value := .finite false 7 1, Tags := [("type", "write")],
                RateType := .Counter, Unit := .Bytes,
                Desc := "The total number of bytes written to the network." }], none) :=
  lineHandler_appends_one_point strconv.ParseFloat [] "bytes_written 7" "bytes_written" "7"
    { Metric := "bytes", TagSet := [("type", "write")], RateType := .Counter, Unit := .Bytes,
      Desc := "The total number of bytes written to the network." }
    (.finite false 7 1) (by decide) (by decide) (by decide)

/-- C2: a raw line whose number of white-space-delimited fields is not two makes
the line handler add no data point to the batch and return a nil error. -/
theorem lineHandler_skips_wrong_field_count
    (md : MultiDataPoint) (line : String) (hf : (strings.Fields line).length ≠ 2) :
    lineHandler ParseFloat md line = (md, none) :=
  lineHandler_fields ParseFloat hf

/-- C2, at the lines "malformed line here" (three fields), "curr_items" (one
field) and the empty line (no field). -/
theorem lineHandler_skips_wrong_field_count_witness :
    lineHandler strconv.ParseFloat [] "malformed line here" = ([], none)
      ∧ lineHandler strconv.ParseFloat [] "curr_items" = ([], none)
      ∧ lineHandler strconv.ParseFloat [] "" = ([], none) :=
  ⟨lineHandler_skips_wrong_field_count strconv.ParseFloat [] "malformed line here" (by decide),
   lineHandler_skips_wrong_field_count strconv.ParseFloat [] "curr_items" (by decide),
   lineHandler_skips_wrong_field_count strconv.ParseFloat [] "" (by decide)⟩

/-- C3: a line of two fields whose second field the float parser does not accept
makes the line handler add no data point to the batch, whatever its first field
is, a key of the table or not. -/
theorem lineHandler_skips_unparsable_value
    (md : MultiDataPoint) (line k s : String)
    (hf : strings.Fields line = [k, s]) (hv : (ParseFloat s).2 ≠ none) :
    lineHandler ParseFloat md line = (md, none) :=
  lineHandler_value ParseFloat hf hv

/-- C3, at the lines "curr_items abc" (a key of the table) and
"totally_unknown_stat abc" (not a key). -/
theorem lineHandler_skips_unparsable_value_witness :
    lineHandler strconv.ParseFloat [] "curr_items abc" = ([], none)
      ∧ lineHandler strconv.ParseFloat [] "totally_unknown_stat abc" = ([], none) :=
  ⟨lineHandler_skips_unparsable_value strconv.ParseFloat [] "curr_items abc" "curr_items"
      "abc" (by decide) (by decide),
   lineHandler_skips_unparsable_value strconv.ParseFloat [] "totally_unknown_stat abc"
      "totally_unknown_stat" "abc" (by decide) (by decide)⟩

/-- C4: a line of two fields whose first field is not equal to one of the keys of
the table makes the line handler add no data point to the batch, also when the
float parser accepts the second field. -/
theorem lineHandler_skips_unknown_key
    (md : MultiDataPoint) (line k s : String)
    (hf : strings.Fields line = [k, s]) (hk : k ∉ memcachedMeta.map Prod.fst) :
    lineHandler ParseFloat md line = (md, none) :=
  lineHandler_key ParseFloat hf (memcachedMeta_get_eq_none.mpr hk)

set_option maxRecDepth 100000 in
/-- C4, at the lines "totally_unknown_stat 5", "CURR_ITEMS 5" (a key in another
case) and "curr 5" (the beginning of a key). -/
theorem lineHandler_skips_unknown_key_witness :
    lineHandler strconv.ParseFloat [] "totally_unknown_stat 5" = ([], none)
      ∧ lineHandler strconv.ParseFloat [] "CURR_ITEMS 5" = ([], none)
      ∧ lineHandler strconv.ParseFloat [] "curr 5" = ([], none) :=
  ⟨lineHandler_skips_unknown_key strconv.ParseFloat [] "totally_unknown_stat 5"
      "totally_unknown_stat" "5" (by decide) (by decide),
   lineHandler_skips_unknown_key strconv.ParseFloat [] "CURR_ITEMS 5" "CURR_ITEMS" "5"
      (by decide) (by decide),
   lineHandler_skips_unknown_key strconv.ParseFloat [] "curr 5" "curr" "5"
      (by decide) (by decide)⟩

/-! ## The claims on whole passes -/

/-- C5: on a raw stream of the single line "bytes_read 1024" the pass returns a
batch of exactly one data point, with name "memcached.bytes", value 1024, the
tag set of the single tag type = read, rate type Counter and unit Bytes. -/
theorem c_memcached_stats_bytes_read (failure : Option util.Error) :
    c_memcached_stats strconv.ParseFloat ⟨["bytes_read 1024"], failure⟩ =
      ([{ Metric := "memcached.bytes", Value := .finite false 1024 1,
          Tags := [("type", "read")], RateType := .Counter, Unit := .Bytes,
          Desc := "The total number of bytes read from the network." }], none) := by
  refine Prod.ext ?_ rfl
  rw [c_memcached_stats_batch]
  show ["bytes_read 1024"].flatMap (fun l => (lineHandler strconv.ParseFloat [] l).1) = _
  decide

/-- C6: on a raw stream of the single line "curr_items 42" the pass returns a
batch of exactly one data point, with name "memcached.curr_items", value 42, an
empty tag set, rate type Gauge and unit Item. -/
theorem c_memcached_stats_curr_items (failure : Option util.Error) :
    c_memcached_stats strconv.ParseFloat ⟨["curr_items 42"], failure⟩ =
      ([{ Metric := "memcached.curr_items", Value := .finite false 42 1,
          Tags := [], RateType := .Gauge, Unit := .Item,
          Desc := "The current number of items in the cache." }], none) := by
  refine Prod.ext ?_ rfl
  rw [c_memcached_stats_batch]
  show ["curr_items 42"].flatMap (fun l => (lineHandler strconv.ParseFloat [] l).1) = _
  decide

/-! ## Series of the table and of a batch -/

/-- Appending to the prefix of the metric names is injective. -/
theorem metric_append_inj {a b : String} : metric ++ a = metric ++ b ↔ a = b := by
  constructor
  · intro h
    have hd := congrArg String.data h
    simp only [String.data_append] at hd
    exact String.ext (List.append_cancel_left hd)
  · intro h
    rw [h]

set_option maxRecDepth 1000000 in
/-- Two entries of the table have the same emitted name and equal tag sets only if
they have the same key, and an entry agrees with itself. -/
theorem memcachedMeta_series : ∀ e1 ∈ memcachedMeta, ∀ e2 ∈ memcachedMeta,
    (((if e1.2.Metric != "" then e1.2.Metric else e1.1)
        == (if e2.2.Metric != "" then e2.2.Metric else e2.1)
      && TagSet.Equal e1.2.TagSet e2.2.TagSet) = true ↔ e1.1 = e2.1) := by
  decide

/-- Two points emitted for keys of the table are of the same series exactly when
the keys are equal. -/
theorem sameSeries_emittedPoint {k1 k2 : String} {m1 m2 : MetricMeta}
    (v1 v2 : strconv.Float64) (h1 : memcachedMeta_get k1 = some m1)
    (h2 : memcachedMeta_get k2 = some m2) :
    sameSeries (emittedPoint k1 m1 v1) (emittedPoint k2 m2 v2) = true ↔ k1 = k2 := by
  have h := memcachedMeta_series (k1, m1) (mem_of_memcachedMeta_get h1) (k2, m2)
    (mem_of_memcachedMeta_get h2)
  rw [← h]
  simp only [sameSeries, emittedPoint, Bool.and_eq_true, beq_iff_eq, metric_append_inj]

/-- What a line does: either the handler adds nothing and the line has no emitted
key, or the line has an emitted key of the table and the handler adds the point
of that key. -/
theorem lineHandler_cases (line : String) :
    ((lineHandler ParseFloat [] line).1 = [] ∧ emittedKey ParseFloat line = none) ∨
    ∃ k m v, memcachedMeta_get k = some m ∧ emittedKey ParseFloat line = some k ∧
      (lineHandler ParseFloat [] line).1 = [emittedPoint k m v] := by
  unfold lineHandler emittedKey
  split
  · next f0 f1 _ =>
      rcases hpf : ParseFloat f1 with ⟨v, e⟩
      cases e with
      | some e => left; simp
      | none =>
          cases hget : memcachedMeta_get f0 with
          | none => left; simp
          | some m => right; exact ⟨f0, m, v, hget, by simp, by simp [Add, emittedPoint]⟩
  · left; simp

/-- The points of a batch: each is the point of an emitted key of some line. -/
theorem mem_batch {ls : List String} {p : DataPoint}
    (hp : p ∈ ls.flatMap (fun l => (lineHandler ParseFloat [] l).1)) :
    ∃ k m v, memcachedMeta_get k = some m ∧ k ∈ ls.filterMap (emittedKey ParseFloat) ∧
      p = emittedPoint k m v := by
  obtain ⟨l, hl, hpl⟩ := List.mem_flatMap.mp hp
  rcases lineHandler_cases ParseFloat l with ⟨hnil, _⟩ | ⟨k, m, v, hget, hkey, hone⟩
  · rw [hnil] at hpl
    cases hpl
  · rw [hone, List.mem_singleton] at hpl
    exact ⟨k, m, v, hget, List.mem_filterMap.mpr ⟨l, hl, hkey⟩, hpl⟩

/-- The emitted keys of a stream: each has its point in the batch. -/
theorem mem_emittedKeys {ls : List String} {k : String}
    (hk : k ∈ ls.filterMap (emittedKey ParseFloat)) :
    ∃ m v, memcachedMeta_get k = some m ∧
      emittedPoint k m v ∈ ls.flatMap (fun l => (lineHandler ParseFloat [] l).1) := by
  obtain ⟨l, hl, hkl⟩ := List.mem_filterMap.mp hk
  rcases lineHandler_cases ParseFloat l with ⟨_, hnone⟩ | ⟨k1, m, v, hget, hkey, hone⟩
  · rw [hnone] at hkl
    cases hkl
  · rw [hkey, Option.some.injEq] at hkl
    subst hkl
    exact ⟨m, v, hget, List.mem_flatMap.mpr ⟨l, hl, by rw [hone]; exact List.mem_singleton.mpr rfl⟩⟩

/-- A batch has no two points of the same series exactly when no key is emitted
by two lines of the stream. -/
theorem batch_pairwise_iff (ls : List String) :
    (ls.flatMap (fun l => (lineHandler ParseFloat [] l).1)).Pairwise
        (fun p q => sameSeries p q = false) ↔
      (ls.filterMap (emittedKey ParseFloat)).Nodup := by
  induction ls with
  | nil => simp
  | cons l ls ih =>
      rcases lineHandler_cases ParseFloat l with ⟨hnil, hnone⟩ | ⟨k, m, v, hget, hkey, hone⟩
      · rw [List.flatMap_cons, hnil, List.nil_append, List.filterMap_cons, hnone]
        exact ih
      · rw [List.flatMap_cons, hone, List.singleton_append, List.filterMap_cons, hkey,
          List.pairwise_cons, List.nodup_cons, ih]
        refine and_congr_left (fun _ => ?_)
        constructor
        · intro hall hmem
          obtain ⟨m1, v1, hget1, hp1⟩ := mem_emittedKeys ParseFloat hmem
          have hsame := (sameSeries_emittedPoint v v1 hget hget1).mpr rfl
          rw [hall _ hp1] at hsame
          exact Bool.noConfusion hsame
        · intro hnot q hq
          obtain ⟨k1, m1, v1, hget1, hk1, rfl⟩ := mem_batch ParseFloat hq
          cases hs : sameSeries (emittedPoint k m v) (emittedPoint k1 m1 v1) with
          | false => rfl
          | true =>
              have hkk := (sameSeries_emittedPoint v v1 hget hget1).mp hs
              subst hkk
              exact absurd hk1 hnot

/-- C7, as the code has it: the batch of a pass holds no two data points with the
same metric name and the same tag set exactly when no raw key is emitted by two
lines of the stream, that is, when no key of the table is the first field of two
lines of two fields with an accepted value. -/
theorem c_memcached_stats_no_duplicates_iff (src : util.RawSource) :
    (c_memcached_stats ParseFloat src).1.Pairwise (fun p q => sameSeries p q = false) ↔
      (src.lines.filterMap (emittedKey ParseFloat)).Nodup := by
  rw [c_memcached_stats_batch]
  exact batch_pairwise_iff ParseFloat src.lines

/-- C7 fails as stated: on the stream "curr_items 1", "curr_items 2" the batch of
the pass holds two data points with the same metric name and the same tag set. -/
theorem c_memcached_stats_repeated_key_duplicates :
    ¬ (c_memcached_stats strconv.ParseFloat ⟨["curr_items 1", "curr_items 2"], none⟩).1.Pairwise
        (fun p q => sameSeries p q = false) := by
  decide

/-- C8 fails as stated: when the raw stat source fails (here before it produces a
line), so that `util.ReadCommand` returns an error, the pass still returns a nil
error to its caller. -/
theorem c_memcached_stats_source_failure_nil_error :
    (util.ReadCommand (lineHandler strconv.ParseFloat) ⟨[], some ⟨"exit status 1"⟩⟩ []).2
        = some ⟨"exit status 1"⟩
      ∧ (c_memcached_stats strconv.ParseFloat ⟨[], some ⟨"exit status 1"⟩⟩).2 = none := by
  decide

/-- C8, as the code has it: the pass returns a nil error for every raw stat
source, also one that reports a failure, and its batch holds the points of the
lines the source produced. -/
theorem c_memcached_stats_error_nil (src : util.RawSource) :
    (c_memcached_stats ParseFloat src).2 = none
      ∧ (c_memcached_stats ParseFloat src).1 =
          src.lines.flatMap (fun l => (lineHandler ParseFloat [] l).1) :=
  ⟨rfl, c_memcached_stats_batch ParseFloat src⟩

/-- C9: the batch keeps the order of the raw lines: the batch for the stream `xs`
followed by `ys` is the batch for `xs` followed by the batch for `ys`, and the
batch of a stream is the concatenation, in order, of what the handler adds for
each line, which is at most one point. -/
theorem c_memcached_stats_append (xs ys : List String) (f f1 f2 : Option util.Error) :
    (c_memcached_stats ParseFloat ⟨xs ++ ys, f⟩).1 =
        (c_memcached_stats ParseFloat ⟨xs, f1⟩).1 ++ (c_memcached_stats ParseFloat ⟨ys, f2⟩).1
      ∧ (c_memcached_stats ParseFloat ⟨xs, f⟩).1 =
          xs.flatMap (fun l => (lineHandler ParseFloat [] l).1)
      ∧ ∀ l, (lineHandler ParseFloat [] l).1.length ≤ 1 := by
  refine ⟨?_, c_memcached_stats_batch ParseFloat _, lineHandler_length_le ParseFloat⟩
  simp only [c_memcached_stats_batch, List.flatMap_append]

/-- C10: a skipped line does not stop the pass: when the line `b` has a field
count other than two, or two fields of which the second is not accepted by the
float parser or the first is not a key of the table, the batch for the stream
`xs`, `b`, `ys` is the batch for the stream `xs`, `ys`. -/
theorem c_memcached_stats_skip_line (xs ys : List String) (b : String)
    (f f1 : Option util.Error)
    (hb : (strings.Fields b).length ≠ 2 ∨
      ∃ k s, strings.Fields b = [k, s] ∧
        ((ParseFloat s).2 ≠ none ∨ k ∉ memcachedMeta.map Prod.fst)) :
    (c_memcached_stats ParseFloat ⟨xs ++ b :: ys, f⟩).1 =
      (c_memcached_stats ParseFloat ⟨xs ++ ys, f1⟩).1 := by
  have hskip : (lineHandler ParseFloat [] b).1 = [] := by
    rcases hb with hf | ⟨k, s, hf, hv | hk⟩
    · rw [lineHandler_fields ParseFloat hf]
    · rw [lineHandler_value ParseFloat hf hv]
    · rw [lineHandler_key ParseFloat hf (memcachedMeta_get_eq_none.mpr hk)]
  simp only [c_memcached_stats_batch, List.flatMap_append, List.flatMap_cons, hskip,
    List.nil_append]

set_option maxRecDepth 100000 in
/-- C10, at the stream "bytes_read 1024", `b`, "curr_items 42" for three skipped
lines `b`: one of three fields, one with an unparsable value and one with an
unknown key; each time the batch is that of the stream without `b`. -/
theorem c_memcached_stats_skip_line_witness :
    (c_memcached_stats strconv.ParseFloat
        ⟨["bytes_read 1024"] ++ "malformed line here" :: ["curr_items 42"], none⟩).1 =
      (c_memcached_stats strconv.ParseFloat ⟨["bytes_read 1024"] ++ ["curr_items 42"], none⟩).1
    ∧ (c_memcached_stats strconv.ParseFloat
        ⟨["bytes_read 1024"] ++ "curr_items abc" :: ["curr_items 42"], none⟩).1 =
      (c_memcached_stats strconv.ParseFloat ⟨["bytes_read 1024"] ++ ["curr_items 42"], none⟩).1
    ∧ (c_memcached_stats strconv.ParseFloat
        ⟨["bytes_read 1024"] ++ "totally_unknown_stat 5" :: ["curr_items 42"], none⟩).1 =
      (c_memcached_stats strconv.ParseFloat ⟨["bytes_read 1024"] ++ ["curr_items 42"], none⟩).1 :=
  ⟨c_memcached_stats_skip_line strconv.ParseFloat ["bytes_read 1024"] ["curr_items 42"]
      "malformed line here" none none (Or.inl (by decide)),
   c_memcached_stats_skip_line strconv.ParseFloat ["bytes_read 1024"] ["curr_items 42"]
      "curr_items abc" none none
      (Or.inr ⟨"curr_items", "abc", by decide, Or.inl (by decide)⟩),
   c_memcached_stats_skip_line strconv.ParseFloat ["bytes_read 1024"] ["curr_items 42"]
      "totally_unknown_stat 5" none none
      (Or.inr ⟨"totally_unknown_stat", "5", by decide, Or.inr (by decide)⟩)⟩

end collectors

/-! ## The claims on the table -/

namespace collectors

open opentsdb

set_option maxRecDepth 100000 in
/-- C11: every entry of `memcachedMeta` has a non-empty description. -/
theorem memcachedMeta_desc_nonempty : ∀ e ∈ memcachedMeta, e.2.Desc ≠ "" := by
  decide

set_option maxRecDepth 100000 in
/-- C11, at the entry of the key "threads". -/
theorem memcachedMeta_desc_nonempty_witness :
    memcachedMeta_get "threads" =
        some { RateType := .Gauge, Unit := .Thread, Desc := "The current number of threads." }
      ∧ ("The current number of threads." : String) ≠ "" :=
  ⟨by decide,
   memcachedMeta_desc_nonempty
    ("threads", { RateType := .Gauge, Unit := .Thread, Desc := "The current number of threads." })
    (by decide)⟩

set_option maxRecDepth 100000 in
/-- The keys of the table are pairwise distinct. -/
theorem memcachedMeta_keys_nodup : (memcachedMeta.map Prod.fst).Nodup := by
  decide

/-- In a list of entries with pairwise distinct keys at most one entry has a
given key. -/
theorem filter_key_length_le {β : Type} (k : String) :
    ∀ l : List (String × β), (l.map Prod.fst).Nodup →
      (l.filter (fun e => e.1 == k)).length ≤ 1
  | [], _ => by simp
  | e :: l, h => by
      rw [List.map_cons, List.nodup_cons] at h
      by_cases hk : e.1 = k
      · have hnone : l.filter (fun e => e.1 == k) = [] := by
          rw [List.filter_eq_nil_iff]
          intro a ha hak
          exact h.1 (List.mem_map.mpr ⟨a, ha, by rw [hk]; exact beq_iff_eq.mp hak⟩)
        simp [List.filter_cons, hk, hnone]
      · have hle := filter_key_length_le k l h.2
        simpa [List.filter_cons, hk] using hle

/-- C12: no raw key occurs more than once among the entries of `memcachedMeta`,
so for every raw key at most one entry of the table has that key. -/
theorem memcachedMeta_key_unique :
    (memcachedMeta.map Prod.fst).Nodup
      ∧ ∀ k : String, (memcachedMeta.filter (fun e => e.1 == k)).length ≤ 1 :=
  ⟨memcachedMeta_keys_nodup, fun k => filter_key_length_le k memcachedMeta memcachedMeta_keys_nodup⟩

end collectors

/-! ## White space around the fields -/

namespace strings

/-- The scanning loop at a separator: the fields of a text up to a separator,
followed by the fields of the rest. -/
theorem fieldsLoop_append_sep (f : Char → Bool) (c : Char) (hc : f c = true)
    (rest : List Char) :
    ∀ (a : List Char) (st : Option (List Char)),
      fieldsLoop f st (a ++ c :: rest) = fieldsLoop f st a ++ fieldsLoop f none rest
  | [], none => by simp [fieldsLoop, hc]
  | [], some w => by simp [fieldsLoop, hc]
  | x :: a, none => by
      by_cases hx : f x = true
      · simp [fieldsLoop, hx, fieldsLoop_append_sep f c hc rest a none]
      · simp [fieldsLoop, hx, fieldsLoop_append_sep f c hc rest a (some [x])]
  | x :: a, some w => by
      by_cases hx : f x = true
      · simp [fieldsLoop, hx, fieldsLoop_append_sep f c hc rest a none]
      · simp [fieldsLoop, hx, fieldsLoop_append_sep f c hc rest a (some (x :: w))]

/-- Between fields the scanning loop passes over a run of separators. -/
theorem fieldsLoop_skip (f : Char → Bool) (rest : List Char) :
    ∀ w : List Char, (∀ c ∈ w, f c = true) →
      fieldsLoop f none (w ++ rest) = fieldsLoop f none rest
  | [], _ => rfl
  | c :: w, h => by
      have hc : f c = true := h c (List.mem_cons_self c w)
      have hw : ∀ d ∈ w, f d = true := fun d hd => h d (List.mem_cons_of_mem c hd)
      simp [fieldsLoop, hc, fieldsLoop_skip f rest w hw]

/-- A run of separators at the end of the text adds no field. -/
theorem fieldsLoop_trailing (f : Char → Bool) (st : Option (List Char)) (a w : List Char)
    (h : ∀ c ∈ w, f c = true) : fieldsLoop f st (a ++ w) = fieldsLoop f st a := by
  cases w with
  | nil => rw [List.append_nil]
  | cons c w =>
      have hc : f c = true := h c (List.mem_cons_self c w)
      have hw : ∀ d ∈ w, f d = true := fun d hd => h d (List.mem_cons_of_mem c hd)
      have hnil : fieldsLoop f none w = [] := by
        have := fieldsLoop_skip f [] w hw
        rw [List.append_nil] at this
        rw [this]
        rfl
      rw [fieldsLoop_append_sep f c hc w a st, hnil, List.append_nil]

/-- White space before and after a line does not change its fields. -/
theorem Fields_trim (pre line post : String)
    (hpre : ∀ c ∈ pre.data, unicode.IsSpace c = true)
    (hpost : ∀ c ∈ post.data, unicode.IsSpace c = true) :
    Fields (pre ++ line ++ post) = Fields line := by
  unfold Fields FieldsFunc
  rw [String.data_append, String.data_append, fieldsLoop_trailing _ _ _ _ hpost,
    fieldsLoop_skip _ _ _ hpre]

/-- The fields of two texts joined by a non-empty run of white space are the
fields of the first followed by the fields of the second. -/
theorem Fields_append_sep (a sep b : String) (hne : sep ≠ "")
    (hsep : ∀ c ∈ sep.data, unicode.IsSpace c = true) :
    Fields (a ++ sep ++ b) = Fields a ++ Fields b := by
  unfold Fields FieldsFunc
  rw [String.data_append, String.data_append]
  cases hd : sep.data with
  | nil => exact absurd (String.ext hd) hne
  | cons c w =>
      rw [hd] at hsep
      have hc : unicode.IsSpace c = true := hsep c (List.mem_cons_self c w)
      have hw : ∀ d ∈ w, unicode.IsSpace d = true :=
        fun d hd => hsep d (List.mem_cons_of_mem c hd)
      rw [List.append_assoc, List.cons_append, fieldsLoop_append_sep _ c hc,
        fieldsLoop_skip _ _ _ hw]

end strings

/-! ## The remaining claims on lines and passes -/

namespace collectors

open opentsdb

variable (ParseFloat : String → strconv.Float64 × Option strconv.NumError)

/-- The handler reads a line only through its fields. -/
theorem lineHandler_congr (md : MultiDataPoint) {l1 l2 : String}
    (h : strings.Fields l1 = strings.Fields l2) :
    lineHandler ParseFloat md l1 = lineHandler ParseFloat md l2 := by
  unfold lineHandler
  rw [h]

/-- The handler adds one point on a valid line and none on any other line. -/
theorem lineHandler_length (line : String) :
    (lineHandler ParseFloat [] line).1.length = if validLine ParseFloat line then 1 else 0 := by
  by_cases h2 : (strings.Fields line).length = 2
  · obtain ⟨k, s, hf⟩ := List.length_eq_two.mp h2
    have hvl : validLine ParseFloat line =
        (decide ((ParseFloat s).2 = none) && (memcachedMeta.map Prod.fst).contains k) := by
      simp only [validLine, hf]
    rw [hvl]
    by_cases hv : (ParseFloat s).2 = none
    · cases hget : memcachedMeta_get k with
      | none =>
          have hk := memcachedMeta_get_eq_none.mp hget
          rw [lineHandler_key ParseFloat hf hget]
          simp [hk]
      | some m =>
          have hk : k ∈ memcachedMeta.map Prod.fst :=
            List.mem_map.mpr ⟨(k, m), mem_of_memcachedMeta_get hget, rfl⟩
          have hpf : ParseFloat s = ((ParseFloat s).1, none) := Prod.ext rfl hv
          rw [lineHandler_emit ParseFloat hf hpf hget]
          simp [hv, hk]
    · rw [lineHandler_value ParseFloat hf hv]
      simp [hv]
  · have hvl : validLine ParseFloat line = false := by
      unfold validLine
      split
      · next k s hf => exact absurd (by rw [hf]; rfl) h2
      · rfl
    rw [lineHandler_fields ParseFloat h2, hvl]
    simp

/-- The number of points of a batch is the number of valid lines. -/
theorem batch_length (ls : List String) :
    (ls.flatMap (fun l => (lineHandler ParseFloat [] l).1)).length =
      ls.countP (validLine ParseFloat) := by
  induction ls with
  | nil => rfl
  | cons l ls ih =>
      rw [List.flatMap_cons, List.length_append, ih, lineHandler_length, List.countP_cons]
      by_cases hv : validLine ParseFloat l = true
      · simp [hv]
        omega
      · simp [hv]

set_option maxRecDepth 100000 in
/-- C15 fails as stated: the entry of the key "connection_structures" has the
string literal "Connection Structures" as its unit, which is none of the unit
constants, so not every entry takes its unit from the shared vocabulary. -/
theorem memcachedMeta_connection_structures_unit :
    memcachedMeta_get "connection_structures" =
        some { RateType := .Gauge, Unit := .literal "Connection Structures",
               Desc := "The number of connection structures allocated by the server." }
      ∧ metadata.Unit.literal "Connection Structures" ∉ unitConstants
      ∧ ¬ ∀ e ∈ memcachedMeta, e.2.Unit ∈ unitConstants := by
  decide

set_option maxRecDepth 100000 in
/-- C15, as the code has it: every entry of `memcachedMeta` other than that of
"connection_structures" takes its unit from the unit constants Bool, Operation,
Bytes, Yield, Connection, Item, Eviction and Thread, and the entry of
"connection_structures" has the string literal "Connection Structures". -/
theorem memcachedMeta_units : ∀ e ∈ memcachedMeta,
    (e.1 ≠ "connection_structures" ∧ e.2.Unit ∈ unitConstants)
      ∨ (e.1 = "connection_structures" ∧ e.2.Unit = .literal "Connection Structures") := by
  decide

set_option maxRecDepth 100000 in
/-- C15 as amended, at the entry of the key "conn_yields", whose unit is the
constant Yield. -/
theorem memcachedMeta_units_witness :
    (("conn_yields" : String) ≠ "connection_structures" ∧ metadata.Unit.Yield ∈ unitConstants)
      ∨ (("conn_yields" : String) = "connection_structures"
          ∧ metadata.Unit.Yield = .literal "Connection Structures") :=
  memcachedMeta_units
    ("conn_yields",
      { RateType := .Counter, Unit := .Yield,
        Desc := "The number of times any connection yielded to another due to hitting the memcached -R limit." })
    (by decide)

/-- C16: the outcome of the handler for a line depends only on the fields of the
line: lines with the same fields have the same outcome; white space added before
and after a line does not change the outcome; and replacing a non-empty run of
white space (such as spaces and tabs) between two parts of a line by another one
does not change it either. -/
theorem lineHandler_whitespace (md : MultiDataPoint) (pre post sep1 sep2 : String)
    (hpre : ∀ c ∈ pre.data, unicode.IsSpace c = true)
    (hpost : ∀ c ∈ post.data, unicode.IsSpace c = true)
    (hsep1 : sep1 ≠ "" ∧ ∀ c ∈ sep1.data, unicode.IsSpace c = true)
    (hsep2 : sep2 ≠ "" ∧ ∀ c ∈ sep2.data, unicode.IsSpace c = true) :
    (∀ l1 l2, strings.Fields l1 = strings.Fields l2 →
        lineHandler ParseFloat md l1 = lineHandler ParseFloat md l2)
      ∧ (∀ line, lineHandler ParseFloat md (pre ++ line ++ post) = lineHandler ParseFloat md line)
      ∧ (∀ a b, lineHandler ParseFloat md (a ++ sep1 ++ b)
            = lineHandler ParseFloat md (a ++ sep2 ++ b)) := by
  refine ⟨fun l1 l2 h => lineHandler_congr ParseFloat md h, fun line => ?_, fun a b => ?_⟩
  · exact lineHandler_congr ParseFloat md (strings.Fields_trim pre line post hpre hpost)
  · apply lineHandler_congr
    rw [strings.Fields_append_sep a sep1 b hsep1.1 hsep1.2,
      strings.Fields_append_sep a sep2 b hsep2.1 hsep2.2]

/-- C16, at the line "curr_items 42": with two spaces before it and a tab and a
space after it, and with its single space replaced by a tab, a space and a tab,
the outcome is that of the line itself. -/
theorem lineHandler_whitespace_witness :
    lineHandler strconv.ParseFloat [] ("  " ++ "curr_items 42" ++ "\t ")
        = lineHandler strconv.ParseFloat [] "curr_items 42"
      ∧ lineHandler strconv.ParseFloat [] ("curr_items" ++ " " ++ "42")
        = lineHandler strconv.ParseFloat [] ("curr_items" ++ "\t \t" ++ "42") :=
  have h := lineHandler_whitespace strconv.ParseFloat [] "  " "\t " " " "\t \t"
    (by decide) (by decide) (by decide) (by decide)
  ⟨h.2.1 "curr_items 42", h.2.2 "curr_items" "42"⟩

set_option maxRecDepth 100000 in
/-- C17: the mapping from raw key to emitted identity is injective over
`memcachedMeta`: two entries with distinct keys do not have both the same emitted
name (the entry's Metric if non-empty, the raw key otherwise) and equal tag sets;
hence a stream in which no key of the table is emitted by two valid lines yields
a batch with no two points of the same name and tag set. -/
theorem memcachedMeta_identity_injective :
    (∀ e1 ∈ memcachedMeta, ∀ e2 ∈ memcachedMeta, e1.1 ≠ e2.1 →
        ¬ ((if e1.2.Metric ≠ "" then e1.2.Metric else e1.1)
              = (if e2.2.Metric ≠ "" then e2.2.Metric else e2.1)
            ∧ TagSet.Equal e1.2.TagSet e2.2.TagSet = true))
      ∧ ∀ (pf : String → strconv.Float64 × Option strconv.NumError) (src : util.RawSource),
          (src.lines.filterMap (emittedKey pf)).Nodup →
            (c_memcached_stats pf src).1.Pairwise (fun p q => sameSeries p q = false) := by
  constructor
  · intro e1 h1 e2 h2 hne hsame
    apply hne
    apply (memcachedMeta_series e1 h1 e2 h2).mp
    simpa using hsame
  · intro pf src hnodup
    rw [c_memcached_stats_batch]
    exact (batch_pairwise_iff pf src.lines).mpr hnodup

set_option maxRecDepth 100000 in
/-- C17, at the entries of "bytes_read" and "bytes_written", which share the
emitted name "bytes" and differ in their tag sets, and at the stream
"bytes_read 1", "bytes_written 2", "bytes 3". -/
theorem memcachedMeta_identity_injective_witness :
    ¬ ((if ("bytes" : String) ≠ "" then "bytes" else "bytes_read")
          = (if ("bytes" : String) ≠ "" then "bytes" else "bytes_written")
        ∧ TagSet.Equal [("type", "read")] [("type", "write")] = true)
      ∧ (c_memcached_stats strconv.ParseFloat
            ⟨["bytes_read 1", "bytes_written 2", "bytes 3"], none⟩).1.Pairwise
          (fun p q => sameSeries p q = false) :=
  ⟨memcachedMeta_identity_injective.1
      ("bytes_read",
        { Metric := "bytes", TagSet := [("type", "read")], RateType := .Counter, Unit := .Bytes,
          Desc := "The total number of bytes read from the network." })
      (by decide)
      ("bytes_written",
        { Metric := "bytes", TagSet := [("type", "write")], RateType := .Counter, Unit := .Bytes,
          Desc := "The total number of bytes written to the network." })
      (by decide) (by decide),
   memcachedMeta_identity_injective.2 strconv.ParseFloat
      ⟨["bytes_read 1", "bytes_written 2", "bytes 3"], none⟩ (by decide)⟩

/-- C18: the number of data points in the batch of a pass is at most the number
of lines of the stream, and equals the number of valid lines, those with exactly
two fields, a second field the float parser accepts and a first field that is a
key of `memcachedMeta`. -/
theorem c_memcached_stats_length (src : util.RawSource) :
    (c_memcached_stats ParseFloat src).1.length ≤ src.lines.length
      ∧ (c_memcached_stats ParseFloat src).1.length = src.lines.countP (validLine ParseFloat) := by
  rw [c_memcached_stats_batch, batch_length]
  exact ⟨List.countP_le_length _, rfl⟩

end collectors
